import Mathlib

set_option maxRecDepth 4000000

/-!
Verification development for the dhis2-alma scheduling service.

The embedding models:
* the persisted data (`schedules` and `job_executions` tables) as lists of rows
  inside a `Store` value; a SQL `UPDATE ... WHERE` is a conditional map over the
  rows and a SQL `INSERT` is an append;
* the functions of `src/schedule.ts` (`cleanupRunningJobs`,
  `isValidCronExpression`, `broadcastProgress`, `getNextRunTime`,
  `scheduleFromRow`, `startScheduleJob`, `restoreActiveSchedules`);
* both variants of `queryDHIS2` from `src/utils.ts` (the job body), with the
  external DHIS2/ALMA calls and the generated uuid supplied by an `Env` record,
  and the uncaught awaits modelled as a `threw` flag on the run result;
* the HTTP handlers of the main application file (schedule creation and the
  start route) together with the in-memory timer registry (a JS `Map`, modelled
  as an association list with replace-on-set semantics).

The cron evaluator (node-cron's `validate` and cron-parser's
`parseExpression`/`next`) is third-party library code that is not part of the
repository sources; it is modelled from the specification's description of the
Cron Evaluator component (five-field cron syntax, `validate` is syntactic
validity only, `nextFireTime` returns the earliest matching instant strictly
after the given one, or `none` when the expression cannot be parsed or no
matching instant is found within the implementation's search horizon).

Timestamps produced by `new Date().toISOString()` are passed in as an opaque
`now : String` parameter (the distinct wall-clock reads inside one operation
are collapsed to a single value; no claim depends on timestamp values).
-/

/-- A row of the `schedules` table (the `Schedule` interface).  SQLite stores
`isActive` as 0/1; it is modelled directly as `Bool` (the JS code only uses it
through `Boolean(...)` truthiness or writes the literals 0/1).  The derived
`nextRun` field is `none` on rows read from the store and is filled in by
`scheduleFromRow`. -/
structure Schedule where
  id : String
  name : String
  cronExpression : String
  task : String
  isActive : Bool
  progress : Int
  status : String
  lastStatus : Option String
  currentJobId : Option String
  message : Option String
  createdAt : String
  updatedAt : String
  lastRun : Option String
  maxRetries : Int
  retryDelay : Int
  retryAttempts : Option Int
  pe : String
  ou : String
  scorecard : Int
  includeChildren : Bool
  nextRun : Option Nat
deriving DecidableEq, Repr

/-- A row of the `job_executions` table. -/
structure JobExecution where
  id : String
  scheduleId : String
  startTime : String
  endTime : Option String
  status : String
deriving DecidableEq, Repr

/-- The durable store (the SQLite database). -/
structure Store where
  schedules : List Schedule
  job_executions : List JobExecution
deriving DecidableEq, Repr

/-- A progress event (the `ProgressUpdate` interface); ephemeral, delivered to
subscribers and discarded. -/
structure ProgressUpdate where
  scheduleId : String
  progress : Int
  status : String
  message : Option String
  timestamp : String
deriving DecidableEq, Repr

/-- `UPDATE schedules SET ... WHERE p`: apply `f` to every row satisfying `p`. -/
def updSchedules (st : Store) (p : Schedule → Bool) (f : Schedule → Schedule) : Store :=
  { st with schedules := st.schedules.map fun s => if p s then f s else s }

/-- `UPDATE job_executions SET ... WHERE p`. -/
def updExecutions (st : Store) (p : JobExecution → Bool) (f : JobExecution → JobExecution) :
    Store :=
  { st with job_executions := st.job_executions.map fun e => if p e then f e else e }

/-- `INSERT INTO job_executions`. -/
def insertExecution (st : Store) (e : JobExecution) : Store :=
  { st with job_executions := st.job_executions ++ [e] }

/-- `SELECT * FROM schedules WHERE id = ?` followed by `.get` (first row). -/
def findScheduleRow (st : Store) (idv : String) : Option Schedule :=
  st.schedules.find? fun s => s.id == idv

/-- The `progressSubscribers` map (`Map<string, Set<callback>>`); subscriber
callbacks are identified by opaque handles. -/
abbrev Subs : Type := List (String × List Nat)

/-- Lookup in the subscriber map. -/
def subsGet (subs : Subs) (k : String) : Option (List Nat) :=
  match subs with
  | [] => none
  | (k2, v) :: rest => if k2 == k then some v else subsGet rest k

/-- One delivery of a progress event to one subscriber handle (the
serialization into an SSE `data:` line is abstracted away). -/
abbrev Delivery : Type := Nat × ProgressUpdate

/-- `broadcastProgress` from `src/schedule.ts`: deliver the update to every
current subscriber for its schedule id, if any. -/
def broadcastProgress (subs : Subs) (update : ProgressUpdate) : List Delivery :=
  match subsGet subs update.scheduleId with
  | some subscribers => subscribers.map fun h => (h, update)
  | none => []

/-! ## Cron evaluator

Modelled from the spec: the Cron Evaluator component (`validate` /
`nextFireTime`), whose implementation lives in the external `node-cron` and
`cron-parser` libraries and is not present under the repository sources.
Instants are minutes since 2000-01-01 00:00 (a Saturday) in the single fixed
process time zone; five-field cron syntax with `*`, numbers, ranges, steps and
lists; a day matches using the standard day-of-month/day-of-week rule (when
both restricted, either may match); the search gives up after a bounded
horizon of days, mirroring the library's bounded iteration. -/

/-- Split a character list at every occurrence of `c` (keeping empty pieces). -/
def splitByChar (c : Char) : List Char → List (List Char)
  | [] => [[]]
  | x :: xs =>
    let r := splitByChar c xs
    if x == c then [] :: r
    else
      match r with
      | [] => [[x]]
      | h :: t => (x :: h) :: t

/-- Value of a decimal digit. -/
def digitVal (c : Char) : Option Nat :=
  if c.isDigit then some (c.toNat - 48) else none

/-- Parse a nonempty all-digit character list. -/
def digitsToNatAux : List Char → Nat → Option Nat
  | [], acc => some acc
  | c :: cs, acc =>
    match digitVal c with
    | some d => digitsToNatAux cs (acc * 10 + d)
    | none => none

/-- Parse a decimal number (none on the empty list or non-digits). -/
def digitsToNat : List Char → Option Nat
  | [] => none
  | l => digitsToNatAux l 0

/-- The values `a, a+step, ...` up to `b`. -/
def rangeVals (a b step : Nat) : List Nat :=
  (List.range (b + 1 - a)).filterMap fun k => if k % step == 0 then some (a + k) else none

/-- Parse the base of one cron item (before any `/step`): `*`, `a` or `a-b`.
Returns the bounds of the selected range; a single number extends to `hi`
when `stepped` (the common `a/s` reading). -/
def parseBase (base : List Char) (lo hi : Nat) (stepped : Bool) : Option (Nat × Nat) :=
  if base == ['*'] then some (lo, hi)
  else
    match splitByChar '-' base with
    | [single] =>
      match digitsToNat single with
      | some a => if lo ≤ a && a ≤ hi then some (a, if stepped then hi else a) else none
      | none => none
    | [aCs, bCs] =>
      match digitsToNat aCs, digitsToNat bCs with
      | some a, some b => if lo ≤ a && a ≤ b && b ≤ hi then some (a, b) else none
      | _, _ => none
    | _ => none

/-- Parse one comma-separated cron item, producing its list of values. -/
def parseItem (item : List Char) (lo hi : Nat) : Option (List Nat) :=
  match splitByChar '/' item with
  | [base] =>
    match parseBase base lo hi false with
    | some (a, b) => some (rangeVals a b 1)
    | none => none
  | [base, stepCs] =>
    match parseBase base lo hi true, digitsToNat stepCs with
    | some (a, b), some step => if step == 0 then none else some (rangeVals a b step)
    | _, _ => none
  | _ => none

/-- Parse a whole cron field: comma-separated items; also reports whether the
field is a bare `*` (the day-of-month/day-of-week rule cares). -/
def parseField (s : List Char) (lo hi : Nat) : Option (List Nat × Bool) :=
  let items := splitByChar ',' s
  let vals := items.foldr
    (fun item acc =>
      match parseItem item lo hi, acc with
      | some vs, some rest => some (vs ++ rest)
      | _, _ => none)
    (some [])
  match vals with
  | some vs => if vs == [] then none else some (vs, s == ['*'])
  | none => none

/-- A parsed five-field cron expression. -/
structure CronSpec where
  minutes : List Nat
  hours : List Nat
  doms : List Nat
  months : List Nat
  dows : List Nat
  domStar : Bool
  dowStar : Bool
deriving DecidableEq, Repr

/-- Parse a five-field cron expression (day-of-week 7 is normalized to 0). -/
def parseCron (e : String) : Option CronSpec :=
  match (splitByChar ' ' e.data).filter (fun f => !(f == [])) with
  | [f1, f2, f3, f4, f5] =>
    match parseField f1 0 59, parseField f2 0 23, parseField f3 1 31,
        parseField f4 1 12, parseField f5 0 7 with
    | some mins, some hrs, some doms, some months, some dows =>
      some ⟨mins.1, hrs.1, doms.1, months.1, dows.1.map (fun d => d % 7), doms.2, dows.2⟩
    | _, _, _, _, _ => none
  | _ => none

/-- `validate(expression)`: syntactic validity only. -/
def validate (e : String) : Bool :=
  (parseCron e).isSome

/-- `isValidCronExpression` from `src/schedule.ts` (delegates to the cron
library's validate). -/
def isValidCronExpression (cronExp : String) : Bool :=
  validate cronExp

/-- Gregorian leap year. -/
def isLeap (y : Nat) : Bool :=
  (y % 4 == 0 && !(y % 100 == 0)) || y % 400 == 0

/-- Days in a month (months are 1-12). -/
def daysInMonth (y m : Nat) : Nat :=
  if m == 2 then (if isLeap y then 29 else 28)
  else if m == 4 || m == 6 || m == 9 || m == 11 then 30
  else 31

/-- Days in a year. -/
def daysInYear (y : Nat) : Nat :=
  if isLeap y then 366 else 365

/-- A calendar date. -/
structure SDate where
  year : Nat
  month : Nat
  day : Nat
deriving DecidableEq, Repr

/-- The next calendar day. -/
def nextSDate (d : SDate) : SDate :=
  if d.day < daysInMonth d.year d.month then ⟨d.year, d.month, d.day + 1⟩
  else if d.month < 12 then ⟨d.year, d.month + 1, 1⟩
  else ⟨d.year + 1, 1, 1⟩

/-- Resolve a day count into (year, day-of-year): fuelled year scan. -/
def yearOfDayAux : Nat → Nat → Nat → Nat × Nat
  | 0, y, d => (y, d)
  | fuel + 1, y, d =>
    if d < daysInYear y then (y, d) else yearOfDayAux fuel (y + 1) (d - daysInYear y)

/-- Resolve a day-of-year into (month, day-of-month). -/
def monthOfDayAux : Nat → Nat → Nat → Nat → Nat × Nat
  | 0, _, m, d => (m, d + 1)
  | fuel + 1, y, m, d =>
    if d < daysInMonth y m then (m, d + 1) else monthOfDayAux fuel y (m + 1) (d - daysInMonth y m)

/-- The calendar date of day `n` (days since 2000-01-01). -/
def dateOfDay (n : Nat) : SDate :=
  let yd := yearOfDayAux (n + 1) 2000 n
  let md := monthOfDayAux 12 yd.1 1 yd.2
  ⟨yd.1, md.1, md.2⟩

/-- Cron day-of-week (0 = Sunday) of day `n`; 2000-01-01 was a Saturday. -/
def dowOfDay (n : Nat) : Nat :=
  (n + 6) % 7

/-- Does a calendar day match the date fields of the expression?  Standard
cron rule: when both day-of-month and day-of-week are restricted (neither is a
bare `*`), the day matches if either field matches. -/
def dayMatches (spec : CronSpec) (d : SDate) (dow : Nat) : Bool :=
  spec.months.contains d.month &&
    (if spec.domStar || spec.dowStar then spec.doms.contains d.day && spec.dows.contains dow
     else spec.doms.contains d.day || spec.dows.contains dow)

/-- Is minute-of-day `m` past the lower bound (strictly, for the first day)? -/
def afterOk (lo : Option Nat) (m : Nat) : Bool :=
  match lo with
  | none => true
  | some c => decide (c < m)

/-- Does minute-of-day `m` match the time fields? -/
def minuteOk (spec : CronSpec) (m : Nat) : Bool :=
  spec.hours.contains (m / 60) && spec.minutes.contains (m % 60)

/-- Earliest matching minute-of-day past the bound, if any. -/
def minuteInDay (spec : CronSpec) (lo : Option Nat) : Option Nat :=
  (List.range 1440).find? fun m => afterOk lo m && minuteOk spec m

/-- Day-by-day bounded search for the earliest matching instant. -/
def searchFrom : Nat → CronSpec → Nat → SDate → Nat → Option Nat → Option Nat
  | 0, _, _, _, _, _ => none
  | fuel + 1, spec, day, date, dow, lo =>
    if dayMatches spec date dow then
      match minuteInDay spec lo with
      | some m => some (day * 1440 + m)
      | none => searchFrom fuel spec (day + 1) (nextSDate date) ((dow + 1) % 7) none
    else searchFrom fuel spec (day + 1) (nextSDate date) ((dow + 1) % 7) none

/-- The search horizon in days (the library's iteration bound). -/
def searchHorizon : Nat := 3660

/-- `nextFireTime(expression, fromInstant)`: `none` when the expression cannot
be parsed, otherwise the earliest matching instant strictly after `t` (or
`none` when no day within the search horizon matches, mirroring the library
giving up on expressions that never fire). -/
def nextFireTime (e : String) (t : Nat) : Option Nat :=
  match parseCron e with
  | none => none
  | some spec =>
    searchFrom searchHorizon spec (t / 1440) (dateOfDay (t / 1440)) (dowOfDay (t / 1440))
      (some (t % 1440))

/-- `getNextRunTime` from `src/schedule.ts`: parse and take the next fire time
from the current instant; any failure (parse error or the iteration giving up)
yields null. -/
def getNextRunTime (cronExp : String) (nowT : Nat) : Option Nat :=
  nextFireTime cronExp nowT

/-! ## schedule.ts -/

/-- The per-schedule transformation applied by `cleanupRunningJobs`'s SQL
`UPDATE schedules SET status = 'failed', progress = 0, updatedAt = ?,
lastRun = ? WHERE id = ?`.  Note that `currentJobId` is not touched. -/
def failTransform (now : String) (s : Schedule) : Schedule :=
  { s with status := "failed", progress := 0, updatedAt := now, lastRun := some now }

/-- The interruption event broadcast by `cleanupRunningJobs` for one stale
running schedule. -/
def interruptUpdate (idv : String) (now : String) : ProgressUpdate :=
  { scheduleId := idv, progress := 0, status := "failed",
    message := some "Task interrupted due to server restart", timestamp := now }

/-- The `for (const job of runningJobs)` loop of `cleanupRunningJobs`: update
the rows with the job's id and broadcast the interruption event. -/
def cleanupLoop (now : String) (subs : Subs) :
    List Schedule → Store → Store × List Delivery
  | [], st => (st, [])
  | job :: rest, st =>
    let st1 := updSchedules st (fun s => s.id == job.id) (failTransform now)
    let ds := broadcastProgress subs (interruptUpdate job.id now)
    let r := cleanupLoop now subs rest st1
    (r.1, ds ++ r.2)

/-- `cleanupRunningJobs` from `src/schedule.ts`: select the schedules whose
status is 'running', then repair each and broadcast an interruption event. -/
def cleanupRunningJobs (now : String) (st : Store) (subs : Subs) : Store × List Delivery :=
  cleanupLoop now subs (st.schedules.filter fun s => s.status == "running") st

/-- `scheduleFromRow` from `src/schedule.ts`: the row with the derived
`nextRun` field filled in (`row.isActive ? getNextRunTime(...) : undefined`);
the `Boolean(...)`/`Date(...)` conversions are identities in this model. -/
def scheduleFromRow (nowT : Nat) (row : Schedule) : Schedule :=
  { row with
    nextRun := if row.isActive then getNextRunTime row.cronExpression nowT else none }

/-- An armed recurring timer (a `node-cron` `ScheduledTask`): it holds the
schedule value captured when it was armed (the timer callback closes over the
`schedule` argument of `startScheduleJob`) and an opaque handle tag. -/
structure Timer where
  snapshot : Schedule
  tag : Nat
deriving DecidableEq, Repr

/-- The `runningJobs` registry (`Map<string, cron.ScheduledTask>`). -/
abbrev Registry : Type := List (String × Timer)

/-- JS `Map.get`. -/
def mapGet (reg : Registry) (k : String) : Option Timer :=
  match reg with
  | [] => none
  | (k2, v) :: rest => if k2 == k then some v else mapGet rest k

/-- JS `Map.set`: replace the value when the key is present, append otherwise. -/
def mapSet (k : String) (v : Timer) : Registry → Registry
  | [] => [(k, v)]
  | (k2, v2) :: rest => if k2 == k then (k, v) :: rest else (k2, v2) :: mapSet k v rest

/-- The number of armed timers for a given id. -/
def countKey (reg : Registry) (k : String) : Nat :=
  reg.countP fun p => p.1 == k

/-- `startScheduleJob` from `src/schedule.ts`: create a timer for the
schedule's cron expression (its callback will run the job body on the captured
`schedule` value, with errors caught and logged), start it, and `Map.set` it
into the registry under the schedule's id.  There is no check whether a timer
already exists for this id; an existing entry is overwritten (the old timer is
not stopped). -/
def startScheduleJob (schedule : Schedule) (runningJobs : Registry) (tag : Nat) :
    Timer × Registry :=
  let job : Timer := { snapshot := schedule, tag := tag }
  (job, mapSet schedule.id job runningJobs)

/-- The step of `restoreActiveSchedules`: arm every active schedule in order,
with fresh handle tags. -/
def restoreLoop (nowT : Nat) : List Schedule → Registry → Nat → Registry
  | [], reg, _ => reg
  | row :: rest, reg, tag =>
    restoreLoop nowT rest (startScheduleJob (scheduleFromRow nowT row) reg tag).2 (tag + 1)

/-- `restoreActiveSchedules` from `src/schedule.ts`: `SELECT * FROM schedules
WHERE isActive = 1`, then arm each (no store mutation). -/
def restoreActiveSchedules (nowT : Nat) (st : Store) (runningJobs : Registry) (tagBase : Nat) :
    Registry :=
  restoreLoop nowT (st.schedules.filter fun s => s.isActive) runningJobs tagBase

/-- `initializeSystem` from the main application file: initialize the database
schema (no effect on the modelled rows) and restore active schedules.  The
`cleanupRunningJobs()` call is commented out in the source, so no recovery of
stale 'running' records happens at startup and the store is returned
unchanged. -/
def initSystem (nowT : Nat) (st : Store) (runningJobs : Registry) (tagBase : Nat) :
    Store × Registry :=
  (st, restoreActiveSchedules nowT st runningJobs tagBase)

/-! ## utils.ts: the job body `queryDHIS2` (both variants) -/

/-- An organisation unit as returned by the DHIS2 fetch. -/
structure OrgUnit where
  id : String
  name : String
  level : Int
  organisationUnitGroups : List String
deriving DecidableEq, Repr

/-- The external world of one job-body run: the generated uuid, the payloads
of the DHIS2 fetches, and which awaits reject.  `stepFails i` means the
analytics fetch or the ALMA upload for loop step `i` rejects (caught by the
per-step try); `subStepFails i j` the same for the second variant's
per-indicator fallback; `dbFails` means `db.run` throws (each try block around
db calls then takes its catch arm).  The organisation-unit fetch and (in the
second variant) the indicator-group fetch are not inside any try, so their
rejection aborts the whole run. -/
structure Env where
  jobId : String
  orgUnits : List OrgUnit
  unitsFetchFails : Bool
  indicators : List String
  indicatorsFetchFails : Bool
  stepFails : Nat → Bool
  subStepFails : Nat → Nat → Bool
  dbFails : Bool

/-- The outcome of one job-body run: the resulting store, the trace of values
passed as `progress` to `UPDATE schedules` statements, the names whose data
was uploaded to ALMA, and whether the async function rejected (an uncaught
await failed). -/
structure RunResult where
  store : Store
  progressWrites : List Int
  almaSends : List String
  threw : Bool
deriving DecidableEq, Repr

/-- JS `Math.round` (round half toward positive infinity), on exact rational
values. -/
def jsRound (q : ℚ) : ℤ :=
  ⌊q + 1 / 2⌋

/-- The per-step progress of the first `queryDHIS2` variant:
`Math.round((i + 1 / totalSteps) * 100)`. -/
def progressV1 (i totalSteps : Nat) : Int :=
  jsRound (((i : ℚ) + 1 / (totalSteps : ℚ)) * 100)

/-- The per-step progress of the second `queryDHIS2` variant:
`Math.round((i / totalSteps) * 100)`. -/
def progressV2 (i totalSteps : Nat) : Int :=
  jsRound (((i : ℚ) / (totalSteps : ℚ)) * 100)

/-- The loop-step message `Completed step ${i} of ${totalSteps} (${name})`. -/
def stepMessage (i totalSteps : Nat) (name : String) : String :=
  "Completed step " ++ toString i ++ " of " ++ toString totalSteps ++ " (" ++ name ++ ")"

/-- The first try block of `queryDHIS2` (identical in both variants):
insert the 'running' execution row, set `currentJobId`/'running'/0/'Task
started' on the schedule row, then set the 'Fetching organisation units'
message.  If `db.run` throws, the catch logs and nothing is applied. -/
def startBlock (env : Env) (schedId : String) (now : String) (st : Store) : Store :=
  if env.dbFails then st
  else
    let stA := insertExecution st
      { id := env.jobId, scheduleId := schedId, startTime := now, endTime := none,
        status := "running" }
    let stB := updSchedules stA (fun s => s.id == schedId) fun s =>
      { s with currentJobId := some env.jobId, status := "running", progress := 0,
               message := some "Task started" }
    updSchedules stB (fun s => s.id == schedId) fun s =>
      { s with message := some "Fetching organisation units" }

/-- The final try block of `queryDHIS2` (identical in both variants): seal the
execution row as 'completed' and write the terminal schedule state
(`currentJobId = NULL`, both statuses 'completed', progress 100). -/
def completionBlock (env : Env) (schedId : String) (now : String) (st : Store) : Store :=
  if env.dbFails then st
  else
    let stC := updExecutions st (fun e => e.id == env.jobId) fun e =>
      { e with endTime := some now, status := "completed" }
    updSchedules stC (fun s => s.id == schedId) fun s =>
      { s with currentJobId := none, lastStatus := some "completed", status := "completed",
               progress := 100, lastRun := some now, message := some "Task completed successfully" }

/-- The `for (const { id, name } of units.organisationUnits)` loop of the
first `queryDHIS2` variant.  The progress is computed before the step's try
block; inside it the analytics fetch, the ALMA upload and the progress write
happen, and any rejection is caught and logged.  The destructured `id`
shadows the schedule id, so the progress `UPDATE ... WHERE id = ?` targets
rows whose id equals the organisation-unit id. -/
def runStepsV1 (env : Env) (total : Nat) :
    Nat → List OrgUnit → Store → Store × List Int × List String
  | _, [], st => (st, [], [])
  | i, u :: rest, st =>
    let progress := progressV1 i total
    if env.stepFails i then
      runStepsV1 env total (i + 1) rest st
    else
      let st1 :=
        if env.dbFails then st
        else updSchedules st (fun s => s.id == u.id) fun s =>
          { s with progress := progress, message := some (stepMessage i total u.name) }
      let w : List Int := if env.dbFails then [] else [progress]
      let r := runStepsV1 env total (i + 1) rest st1
      (r.1, w ++ r.2.1, u.name :: r.2.2)

/-- The first variant of `queryDHIS2` from `src/utils.ts`.  The guard skips
the whole body when the status field of the schedule value passed in is
'running'.  The organisation-unit fetch is not inside a try: its rejection
propagates out of the job body after the start block has already run. -/
def queryDHIS2 (env : Env) (sched : Schedule) (now : String) (st : Store) : RunResult :=
  if sched.status == "running" then
    { store := st, progressWrites := [], almaSends := [], threw := false }
  else
    let st1 := startBlock env sched.id now st
    let sw : List Int := if env.dbFails then [] else [0]
    if env.unitsFetchFails then
      { store := st1, progressWrites := sw, almaSends := [], threw := true }
    else
      let units := env.orgUnits
      let r := runStepsV1 env units.length 1 units st1
      let st3 := completionBlock env sched.id now r.1
      let ew : List Int := if env.dbFails then [] else [100]
      { store := st3, progressWrites := sw ++ r.2.1 ++ ew, almaSends := r.2.2, threw := false }

/-- The names uploaded by the second variant's per-indicator fallback loop for
step `i` (each sub-attempt's failure is caught and logged). -/
def fallbackSends (env : Env) (i : Nat) (name : String) : List String :=
  (List.range env.indicators.length).filterMap fun j =>
    if env.subStepFails i j then none else some name

/-- The unit loop of the second `queryDHIS2` variant: the primary
analytics+upload try, whose catch runs the per-indicator fallback loop
(no store writes in either), then the progress write in its own try.  Here
too the destructured `id` shadows the schedule id in the progress UPDATE. -/
def runStepsV2 (env : Env) (total : Nat) :
    Nat → List OrgUnit → Store → Store × List Int × List String
  | _, [], st => (st, [], [])
  | i, u :: rest, st =>
    let sends := if env.stepFails i then fallbackSends env i u.name else [u.name]
    let progress := progressV2 i total
    let st1 :=
      if env.dbFails then st
      else updSchedules st (fun s => s.id == u.id) fun s =>
        { s with progress := progress, message := some (stepMessage i total u.name) }
    let w : List Int := if env.dbFails then [] else [progress]
    let r := runStepsV2 env total (i + 1) rest st1
    (r.1, w ++ r.2.1, sends ++ r.2.2)

/-- The second variant of `queryDHIS2` from `src/utils.ts` (same guard, same
start and completion blocks; it additionally fetches the indicator group —
also outside any try — and filters indicators per unit, which affects only the
request URLs). -/
def queryDHIS2v2 (env : Env) (sched : Schedule) (now : String) (st : Store) : RunResult :=
  if sched.status == "running" then
    { store := st, progressWrites := [], almaSends := [], threw := false }
  else
    let st1 := startBlock env sched.id now st
    let sw : List Int := if env.dbFails then [] else [0]
    if env.unitsFetchFails then
      { store := st1, progressWrites := sw, almaSends := [], threw := true }
    else if env.indicatorsFetchFails then
      { store := st1, progressWrites := sw, almaSends := [], threw := true }
    else
      let units := env.orgUnits
      let r := runStepsV2 env units.length 1 units st1
      let st3 := completionBlock env sched.id now r.1
      let ew : List Int := if env.dbFails then [] else [100]
      { store := st3, progressWrites := sw ++ r.2.1 ++ ew, almaSends := r.2.2, threw := false }

/-- One fire of an armed timer (the callback registered by
`startScheduleJob`): run the job body on the captured schedule snapshot; a
rejection is caught and logged at this boundary (`catch (error) {
console.error(...) }`), so the fire always returns and the store effects are
exactly those the body performed before rejecting. -/
def jobFire (env : Env) (snapshot : Schedule) (now : String) (st : Store) : Store :=
  (queryDHIS2 env snapshot now st).store

/-! ## The HTTP handlers of the main application file -/

/-- An HTTP response (payloads of successful responses are abstracted to the
status code; error responses keep their message). -/
inductive Resp where
  | ok (code : Nat)
  | err (code : Nat) (msg : String)
deriving DecidableEq, Repr

/-- Is the response an error rejection? -/
def Resp.isErr : Resp → Bool
  | .ok _ => false
  | .err _ _ => true

/-- The parsed JSON body of `POST /schedules` (absent fields are `none`;
`maxRetries` and `retryDelay` get defaults 3 and 60 on destructuring). -/
structure CreateBody where
  name : Option String
  cronExpression : Option String
  task : Option String
  maxRetries : Option Int
  retryDelay : Option Int
  pe : Option String
  ou : Option String
  scorecard : Option Int
  includeChildren : Option Bool
deriving DecidableEq, Repr

/-- JS truthiness of an optional string field (absent and empty are falsy). -/
def truthy : Option String → Bool
  | none => false
  | some s => !(s == "")

/-- The `POST /schedules` handler: required-field check, cron validation,
retry-parameter bounds, then insert the new row (id `uid` from
`crypto.randomUUID()`) with `isActive = 0`, `progress = 0`, `status = 'idle'`,
and re-read it. -/
def createSchedule (body : CreateBody) (uid : String) (now : String) (st : Store) :
    Resp × Store :=
  let maxRetries := body.maxRetries.getD 3
  let retryDelay := body.retryDelay.getD 60
  if !truthy body.name || !truthy body.cronExpression || !truthy body.task then
    (.err 400 "Missing required fields", st)
  else if !isValidCronExpression (body.cronExpression.getD "") then
    (.err 400 "Invalid cron expression", st)
  else if maxRetries < 0 || 10 < maxRetries then
    (.err 400 "maxRetries must be between 0 and 10", st)
  else if retryDelay < 0 || 3600 < retryDelay then
    (.err 400 "retryDelay must be between 0 and 3600 seconds", st)
  else
    let row : Schedule :=
      { id := uid, name := body.name.getD "", cronExpression := body.cronExpression.getD "",
        task := body.task.getD "", isActive := false, progress := 0, status := "idle",
        lastStatus := none, currentJobId := none, message := none, createdAt := now,
        updatedAt := now, lastRun := none, maxRetries := maxRetries, retryDelay := retryDelay,
        retryAttempts := none, pe := body.pe.getD "", ou := body.ou.getD "",
        scorecard := body.scorecard.getD 0, includeChildren := body.includeChildren.getD false,
        nextRun := none }
    let st1 : Store := { st with schedules := st.schedules ++ [row] }
    match findScheduleRow st1 uid with
    | none => (.err 404 "Schedule not found", st1)
    | some _ => (.ok 201, st1)

/-- The combined outcome of a start request. -/
structure HandlerOut where
  resp : Resp
  store : Store
  registry : Registry

/-- The row transformation of the start handler's `UPDATE schedules SET
isActive = 1, updatedAt = ?, status = 'idle', progress = 0`. -/
def startActivate (now : String) (s : Schedule) : Schedule :=
  { s with isActive := true, updatedAt := now, status := "idle", progress := 0 }

/-- The `POST /schedules/:id/start` handler: look the row up, reject with 400
when it is already active, otherwise arm the timer (registry mutation), then
`UPDATE ... SET isActive = 1, status = 'idle', progress = 0` and re-read.
`writeFails` models the `db.run` throwing: the catch answers 500 but the timer
armed just before stays in the registry. -/
def startHandler (nowT : Nat) (now : String) (writeFails : Bool) (tag : Nat) (idp : String)
    (st : Store) (registry : Registry) : HandlerOut :=
  match findScheduleRow st idp with
  | none => ⟨.err 404 "Schedule not found", st, registry⟩
  | some scheduleRow =>
    let schedule := scheduleFromRow nowT scheduleRow
    if schedule.isActive then ⟨.err 400 "Schedule is already running", st, registry⟩
    else
      let armed := startScheduleJob schedule registry tag
      if writeFails then ⟨.err 500 "Failed to start schedule", st, armed.2⟩
      else
        let st1 := updSchedules st (fun s => s.id == idp) (startActivate now)
        match findScheduleRow st1 idp with
        | none => ⟨.err 404 "Schedule not found", st1, armed.2⟩
        | some _ => ⟨.ok 200, st1, armed.2⟩

/-! ## Concrete fixtures used by witnesses and counterexamples -/

/-- A baseline schedule row. -/
def baseRow : Schedule :=
  { id := "s1", name := "daily", cronExpression := "* * * * *", task := "sync",
    isActive := false, progress := 0, status := "idle", lastStatus := none,
    currentJobId := none, message := none, createdAt := "t0", updatedAt := "t0",
    lastRun := none, maxRetries := 3, retryDelay := 60, retryAttempts := none,
    pe := "2024Q1", ou := "ouRoot", scorecard := 1, includeChildren := false,
    nextRun := none }

/-- The row `s1` in status 'idle' (also the arm-time snapshot of the timer). -/
def rowIdle : Schedule := baseRow

/-- The row `s1` persisted in status 'running' mid-execution. -/
def rowRunning : Schedule :=
  { baseRow with status := "running", currentJobId := some "j0" }

/-- A store holding just the idle schedule. -/
def stIdle : Store := { schedules := [rowIdle], job_executions := [] }

/-- A store holding just the running schedule. -/
def stRunning : Store := { schedules := [rowRunning], job_executions := [] }

/-- A benign environment: no failures, no organisation units. -/
def baseEnv : Env :=
  { jobId := "j1", orgUnits := [], unitsFetchFails := false, indicators := [],
    indicatorsFetchFails := false, stepFails := fun _ => false,
    subStepFails := fun _ _ => false, dbFails := false }

/-- An environment whose organisation-unit fetch rejects. -/
def envFetchFail : Env := { baseEnv with unitsFetchFails := true }

/-- An environment returning a single organisation unit. -/
def envOneUnit : Env :=
  { baseEnv with
    orgUnits := [{ id := "ouA", name := "Unit A", level := 3, organisationUnitGroups := [] }] }

/-- A timer armed earlier for `s1`. -/
def oldTimer : Timer := { snapshot := rowIdle, tag := 0 }

/-- A registry already holding a timer for `s1`. -/
def regS1 : Registry := [("s1", oldTimer)]

/-- An empty store. -/
def stEmpty : Store := { schedules := [], job_executions := [] }

/-- A fully valid creation body. -/
def bodyBase : CreateBody :=
  { name := some "daily", cronExpression := some "0 0 * * *", task := some "sync",
    maxRetries := none, retryDelay := none, pe := some "2024Q1", ou := some "ouRoot",
    scorecard := some 1, includeChildren := some false }

/-- The creation body with `maxRetries` just past the bound. -/
def bodyMax11 : CreateBody := { bodyBase with maxRetries := some 11 }

/-- The creation body at the accepted boundary. -/
def bodyBoundary : CreateBody := { bodyBase with maxRetries := some 10, retryDelay := some 3600 }

/-- The creation body with the name missing. -/
def bodyNoName : CreateBody := { bodyBase with name := none }

/-- The schedules-side invariant of the spec: a schedule's persisted
`currentJobId` is non-null exactly when its persisted status is 'running'. -/
def StatusJobInv (st : Store) : Prop :=
  ∀ s ∈ st.schedules, (s.status = "running" ↔ s.currentJobId ≠ none)

instance (st : Store) : Decidable (StatusJobInv st) := by
  unfold StatusJobInv; infer_instance

/-! ## Helper lemmas -/

theorem statusJobInv_updSchedules {p : Schedule → Bool} {f : Schedule → Schedule}
    (hf : ∀ s, (s.status = "running" ↔ s.currentJobId ≠ none) →
      ((f s).status = "running" ↔ (f s).currentJobId ≠ none))
    {st : Store} (h : StatusJobInv st) : StatusJobInv (updSchedules st p f) := by
  intro s hs
  simp only [updSchedules, List.mem_map] at hs
  obtain ⟨a, ha, rfl⟩ := hs
  by_cases hp : p a
  · simpa [hp] using hf a (h a ha)
  · simpa [hp] using h a ha

theorem statusJobInv_startBlock (env : Env) (schedId now : String) {st : Store}
    (h : StatusJobInv st) : StatusJobInv (startBlock env schedId now st) := by
  unfold startBlock
  split
  · exact h
  · refine statusJobInv_updSchedules (fun s hs => by simpa using hs) ?_
    refine statusJobInv_updSchedules (fun s hs => by simp) ?_
    exact h

theorem statusJobInv_completionBlock (env : Env) (schedId now : String) {st : Store}
    (h : StatusJobInv st) : StatusJobInv (completionBlock env schedId now st) := by
  unfold completionBlock
  split
  · exact h
  · refine statusJobInv_updSchedules (fun s hs => by simp) ?_
    exact h

theorem statusJobInv_runStepsV1 (env : Env) (total : Nat) :
    ∀ (i : Nat) (units : List OrgUnit) (st : Store), StatusJobInv st →
      StatusJobInv (runStepsV1 env total i units st).1 := by
  intro i units
  induction units generalizing i with
  | nil => intro st h; simpa [runStepsV1] using h
  | cons u rest ih =>
    intro st h
    by_cases hs : env.stepFails i
    · simpa [runStepsV1, hs] using ih (i + 1) st h
    · simp only [runStepsV1, hs, if_false, Bool.false_eq_true]
      apply ih
      by_cases hd : env.dbFails
      · simpa [hd] using h
      · simp only [hd, if_false, Bool.false_eq_true]
        exact statusJobInv_updSchedules (fun s hs => by simpa using hs) h

theorem statusJobInv_runStepsV2 (env : Env) (total : Nat) :
    ∀ (i : Nat) (units : List OrgUnit) (st : Store), StatusJobInv st →
      StatusJobInv (runStepsV2 env total i units st).1 := by
  intro i units
  induction units generalizing i with
  | nil => intro st h; simpa [runStepsV2] using h
  | cons u rest ih =>
    intro st h
    simp only [runStepsV2]
    apply ih
    by_cases hd : env.dbFails
    · simpa [hd] using h
    · simp only [hd, if_false, Bool.false_eq_true]
      exact statusJobInv_updSchedules (fun s hs => by simpa using hs) h

theorem statusJobInv_queryDHIS2 (env : Env) (sched : Schedule) (now : String) {st : Store}
    (h : StatusJobInv st) : StatusJobInv (queryDHIS2 env sched now st).store := by
  unfold queryDHIS2
  by_cases hrun : sched.status == "running"
  · simpa [hrun] using h
  · simp only [hrun, if_false, Bool.false_eq_true]
    by_cases hf : env.unitsFetchFails
    · simpa [hf] using statusJobInv_startBlock env sched.id now h
    · simp only [hf, if_false, Bool.false_eq_true]
      exact statusJobInv_completionBlock env sched.id now
        (statusJobInv_runStepsV1 env _ 1 env.orgUnits _
          (statusJobInv_startBlock env sched.id now h))

theorem statusJobInv_queryDHIS2v2 (env : Env) (sched : Schedule) (now : String) {st : Store}
    (h : StatusJobInv st) : StatusJobInv (queryDHIS2v2 env sched now st).store := by
  unfold queryDHIS2v2
  by_cases hrun : sched.status == "running"
  · simpa [hrun] using h
  · simp only [hrun, if_false, Bool.false_eq_true]
    by_cases hf : env.unitsFetchFails
    · simpa [hf] using statusJobInv_startBlock env sched.id now h
    · by_cases hi : env.indicatorsFetchFails
      · simpa [hf, hi] using statusJobInv_startBlock env sched.id now h
      · simp only [hf, hi, if_false, Bool.false_eq_true]
        exact statusJobInv_completionBlock env sched.id now
          (statusJobInv_runStepsV2 env _ 1 env.orgUnits _
            (statusJobInv_startBlock env sched.id now h))

theorem failTransform_idem (now : String) (s : Schedule) :
    failTransform now (failTransform now s) = failTransform now s := rfl

theorem failTransform_id_eq (now : String) (s : Schedule) :
    (failTransform now s).id = s.id := rfl

theorem cleanupLoop_schedules (now : String) (subs : Subs) :
    ∀ (jobs : List Schedule) (st : Store),
      ((cleanupLoop now subs jobs st).1).schedules =
        st.schedules.map fun s =>
          if jobs.any (fun j => j.id == s.id) then failTransform now s else s := by
  intro jobs
  induction jobs with
  | nil => intro st; simp [cleanupLoop]
  | cons j rest ih =>
    intro st
    simp only [cleanupLoop]
    rw [ih]
    simp only [updSchedules, List.map_map]
    apply List.map_congr_left
    intro s _
    by_cases h1 : s.id = j.id
    · by_cases h2 : rest.any fun r => r.id == s.id
      · simp [Function.comp, h1, h2, failTransform_idem, List.any_cons, beq_iff_eq]
      · simp [Function.comp, h1, h2, List.any_cons, beq_iff_eq]
        intro x hx hxx
        rfl
    · have h3 : ¬ (j.id = s.id) := fun hh => h1 hh.symm
      by_cases h2 : rest.any fun r => r.id == s.id
      · simp [Function.comp, h1, h2, h3, List.any_cons, beq_iff_eq]
      · simp [Function.comp, h1, h2, h3, List.any_cons, beq_iff_eq]

theorem cleanupRunningJobs_schedules (now : String) (subs : Subs) (st : Store) :
    ((cleanupRunningJobs now st subs).1).schedules =
      st.schedules.map fun s =>
        if (st.schedules.filter fun r => r.status == "running").any (fun r => r.id == s.id)
        then failTransform now s else s := by
  unfold cleanupRunningJobs
  exact cleanupLoop_schedules now subs _ st

theorem cleanupLoop_delivers (now : String) (subs : Subs) :
    ∀ (jobs : List Schedule) (st : Store) (job : Schedule), job ∈ jobs →
      ∀ (hs : List Nat) (h : Nat), subsGet subs job.id = some hs → h ∈ hs →
        (h, interruptUpdate job.id now) ∈ (cleanupLoop now subs jobs st).2 := by
  intro jobs
  induction jobs with
  | nil => intro st job hj; cases hj
  | cons j rest ih =>
    intro st job hj hs h hsub hh
    simp only [cleanupLoop, List.mem_append]
    rcases List.mem_cons.mp hj with rfl | hj2
    · left
      simp only [broadcastProgress, interruptUpdate] at hsub ⊢
      rw [hsub]
      exact List.mem_map.mpr ⟨h, hh, rfl⟩
    · right
      exact ih _ job hj2 hs h hsub hh

theorem findScheduleRow_id {st : Store} {idv : String} {row : Schedule}
    (h : findScheduleRow st idv = some row) : row.id = idv := by
  have h2 := List.find?_some h
  exact beq_iff_eq.mp h2

theorem find_upd_list (idv : String) (f : Schedule → Schedule)
    (hf : ∀ s, (f s).id = s.id) :
    ∀ (l : List Schedule) (row : Schedule), l.find? (fun s => s.id == idv) = some row →
      (l.map fun s => if s.id == idv then f s else s).find? (fun s => s.id == idv) =
        some (f row) := by
  intro l
  induction l with
  | nil => intro row h; simp at h
  | cons a rest ih =>
    intro row h
    rw [List.find?_cons] at h
    simp only [List.map_cons]
    rw [List.find?_cons]
    cases ha : (a.id == idv) with
    | true =>
      simp only [ha] at h
      have hrow : a = row := by injection h
      subst hrow
      simp [hf, ha]
    | false =>
      simp only [ha] at h
      simp only [ha, if_false, Bool.false_eq_true, hf]
      exact ih row h

theorem findScheduleRow_upd {st : Store} {idv : String} {f : Schedule → Schedule}
    (hf : ∀ s, (f s).id = s.id) {row : Schedule}
    (h : findScheduleRow st idv = some row) :
    findScheduleRow (updSchedules st (fun s => s.id == idv) f) idv = some (f row) := by
  have h2 : st.schedules.find? (fun s => s.id == idv) = some row := h
  exact find_upd_list idv f hf st.schedules row h2

theorem mapGet_mapSet_self (k : String) (v : Timer) :
    ∀ (reg : Registry), mapGet (mapSet k v reg) k = some v := by
  intro reg
  induction reg with
  | nil => simp [mapSet, mapGet]
  | cons p rest ih =>
    by_cases hk : p.1 == k
    · simp [mapSet, hk, mapGet]
    · simp [mapSet, hk, mapGet, ih]

theorem countKey_mapSet_absent {k : String} (v : Timer) :
    ∀ {reg : Registry}, mapGet reg k = none → countKey (mapSet k v reg) k = 1 := by
  intro reg
  induction reg with
  | nil => intro _; simp [mapSet, countKey, List.countP_cons]
  | cons p rest ih =>
    intro h
    unfold mapGet at h
    by_cases hk : p.1 == k
    · simp [hk] at h
    · simp only [hk, if_false, Bool.false_eq_true] at h
      unfold mapSet
      simp only [hk, if_false, Bool.false_eq_true]
      unfold countKey at ih ⊢
      rw [List.countP_cons]
      simp [hk, ih h]

theorem mapSet_length_present {k : String} (v : Timer) :
    ∀ {reg : Registry} {t : Timer}, mapGet reg k = some t →
      (mapSet k v reg).length = reg.length := by
  intro reg
  induction reg with
  | nil => intro t h; simp [mapGet] at h
  | cons p rest ih =>
    intro t h
    unfold mapGet at h
    by_cases hk : p.1 == k
    · simp [mapSet, hk]
    · simp only [hk, if_false, Bool.false_eq_true] at h
      simp [mapSet, hk, ih h]

theorem minuteInDay_lt {spec : CronSpec} {c m : Nat}
    (h : minuteInDay spec (some c) = some m) : c < m := by
  have h2 := List.find?_some h
  have h3 := (Bool.and_eq_true _ _).mp h2
  have h4 : afterOk (some c) m = true := h3.1
  simpa [afterOk] using h4

theorem searchFrom_bound :
    ∀ (fuel : Nat) (spec : CronSpec) (day : Nat) (date : SDate) (dow : Nat)
      (lo : Option Nat) (u : Nat),
      (∀ c, lo = some c → c < 1440) →
      searchFrom fuel spec day date dow lo = some u →
      day * 1440 ≤ u ∧ (∀ c, lo = some c → day * 1440 + c < u) := by
  intro fuel
  induction fuel with
  | zero => intro spec day date dow lo u _ h; simp [searchFrom] at h
  | succ fuel ih =>
    intro spec day date dow lo u hc h
    unfold searchFrom at h
    by_cases hd : dayMatches spec date dow
    · simp only [hd, if_true] at h
      cases hmid : minuteInDay spec lo with
      | some m =>
        rw [hmid] at h
        have hu : u = day * 1440 + m := by injection h; omega
        subst hu
        constructor
        · omega
        · intro c hcl
          subst hcl
          have := minuteInDay_lt hmid
          omega
      | none =>
        rw [hmid] at h
        have := ih spec (day + 1) (nextSDate date) ((dow + 1) % 7) none u
          (fun c hcl => by simp at hcl) h
        constructor
        · omega
        · intro c hcl
          have hlt := hc c hcl
          omega
    · simp only [hd, if_false, Bool.false_eq_true] at h
      have := ih spec (day + 1) (nextSDate date) ((dow + 1) % 7) none u
        (fun c hcl => by simp at hcl) h
      constructor
      · omega
      · intro c hcl
        have hlt := hc c hcl
        omega

theorem progressV1_one : progressV1 1 1 = 200 := by
  have h1 : (((1 : Nat) : ℚ) + 1 / ((1 : Nat) : ℚ)) * 100 + 1 / 2 = 200 + 1 / 2 := by norm_num
  unfold progressV1 jsRound
  rw [h1]
  rw [Int.floor_eq_iff]
  constructor <;> norm_num

theorem startHandler_inactive (nowT : Nat) (now : String) (tag : Nat) (idp : String)
    (st : Store) (reg : Registry) (row : Schedule)
    (hrow : findScheduleRow st idp = some row) (hact : row.isActive = false) :
    startHandler nowT now false tag idp st reg =
      ⟨Resp.ok 200,
       updSchedules st (fun s => s.id == idp) (startActivate now),
       mapSet row.id { snapshot := scheduleFromRow nowT row, tag := tag } reg⟩ := by
  have hview : (scheduleFromRow nowT row).isActive = false := hact
  have hfid : ∀ s : Schedule, (startActivate now s).id = s.id := fun s => rfl
  have h1 := findScheduleRow_upd hfid hrow
  unfold startHandler
  rw [hrow]
  simp only [hview, if_false, Bool.false_eq_true, startScheduleJob]
  rw [h1]
  rfl

theorem startHandler_active (nowT : Nat) (now : String) (w : Bool) (tag : Nat) (idp : String)
    (st : Store) (reg : Registry) (row : Schedule)
    (hrow : findScheduleRow st idp = some row) (hact : row.isActive = true) :
    startHandler nowT now w tag idp st reg =
      ⟨Resp.err 400 "Schedule is already running", st, reg⟩ := by
  have hview : (scheduleFromRow nowT row).isActive = true := hact
  unfold startHandler
  rw [hrow]
  simp only [hview, if_true]

theorem startHandler_writeFail (nowT : Nat) (now : String) (tag : Nat) (idp : String)
    (st : Store) (reg : Registry) (row : Schedule)
    (hrow : findScheduleRow st idp = some row) (hact : row.isActive = false) :
    startHandler nowT now true tag idp st reg =
      ⟨Resp.err 500 "Failed to start schedule", st,
       mapSet row.id { snapshot := scheduleFromRow nowT row, tag := tag } reg⟩ := by
  have hview : (scheduleFromRow nowT row).isActive = false := hact
  unfold startHandler
  rw [hrow]
  simp only [hview, if_false, Bool.false_eq_true, startScheduleJob, if_true]
  rfl

/-! ## The claims -/

/-- C1 (counterexample): the claimed invariant "persisted `currentJobId` is
non-null iff persisted status is 'running', after every status transition
including recovery's repair of stale running records" is false: repairing the
store that holds a running schedule with `currentJobId = some "j0"` leaves the
`currentJobId` in place while forcing the status to 'failed'. -/
theorem c1_counterexample :
    ¬ StatusJobInv (cleanupRunningJobs "t1" stRunning []).1 := by decide

/-- C1 (amended): the iff between a non-null `currentJobId` and status
'running' is preserved by the job-body start and completion transitions (both
`queryDHIS2` variants preserve it for every store), but recovery's repair
(`cleanupRunningJobs`) rewrites every stale running row with `failTransform`,
which sets status 'failed' and progress 0 without clearing `currentJobId`. -/
theorem c1_amended :
    (∀ (env : Env) (sched : Schedule) (now : String) (st : Store),
      StatusJobInv st → StatusJobInv (queryDHIS2 env sched now st).store) ∧
    (∀ (env : Env) (sched : Schedule) (now : String) (st : Store),
      StatusJobInv st → StatusJobInv (queryDHIS2v2 env sched now st).store) ∧
    (∀ (now : String) (subs : Subs) (st : Store),
      ((cleanupRunningJobs now st subs).1).schedules =
        st.schedules.map fun s =>
          if (st.schedules.filter fun r => r.status == "running").any (fun r => r.id == s.id)
          then failTransform now s else s) :=
  ⟨fun env sched now st h => statusJobInv_queryDHIS2 env sched now h,
   fun env sched now st h => statusJobInv_queryDHIS2v2 env sched now h,
   fun now subs st => cleanupRunningJobs_schedules now subs st⟩

/-- C1 (witness): the invariant-preservation part of the amended claim at a
concrete store satisfying the invariant. -/
theorem c1_witness :
    StatusJobInv stRunning ∧ StatusJobInv (queryDHIS2 baseEnv rowIdle "t" stRunning).store :=
  ⟨by decide, c1_amended.1 baseEnv rowIdle "t" stRunning (by decide)⟩

/-- C2 (counterexample): the claim that recovery runs at startup is false: the
`cleanupRunningJobs()` call in `initializeSystem` is commented out, so startup
returns the store unchanged and a schedule persisted as 'running' keeps status
'running' instead of becoming 'failed'. -/
theorem c2_counterexample :
    (initSystem 0 stRunning [] 0).1 = stRunning ∧
    (findScheduleRow stRunning "s1").map Schedule.status = some "running" := by decide

/-- C2 (amended): startup (`initSystem`) performs no recovery — it leaves the
store untouched; the recovery function `cleanupRunningJobs` itself, when
invoked, publishes the interruption event to every subscriber present and
forces every stale running schedule to 'failed' with progress 0 (via
`failTransform`). -/
theorem c2_amended :
    (∀ (nowT : Nat) (st : Store) (reg : Registry) (tagBase : Nat),
      (initSystem nowT st reg tagBase).1 = st) ∧
    (∀ (now : String) (subs : Subs) (st : Store) (job : Schedule),
      job ∈ st.schedules → job.status = "running" →
      ∀ (hs : List Nat) (h : Nat), subsGet subs job.id = some hs → h ∈ hs →
        (h, interruptUpdate job.id now) ∈ (cleanupRunningJobs now st subs).2) ∧
    (∀ (now : String) (subs : Subs) (st : Store),
      ((cleanupRunningJobs now st subs).1).schedules =
        st.schedules.map fun s =>
          if (st.schedules.filter fun r => r.status == "running").any (fun r => r.id == s.id)
          then failTransform now s else s) := by
  refine ⟨fun nowT st reg tagBase => rfl, ?_,
    fun now subs st => cleanupRunningJobs_schedules now subs st⟩
  intro now subs st job hjob hrun hs h hsub hh
  unfold cleanupRunningJobs
  refine cleanupLoop_delivers now subs _ st job ?_ hs h hsub hh
  exact List.mem_filter.mpr ⟨hjob, by simp [hrun]⟩

/-- C2 (witness): the delivery part of the amended claim at a concrete store
with one running schedule and one subscriber present before recovery. -/
theorem c2_witness :
    ((7 : Nat), interruptUpdate "s1" "t1") ∈
      (cleanupRunningJobs "t1" stRunning [("s1", [7])]).2 :=
  c2_amended.2.1 "t1" [("s1", [7])] stRunning rowRunning (by decide) (by decide)
    [7] 7 (by decide) (by decide)

/-- C3 (counterexample): the claim that a job-body error makes the core mark
the schedule 'failed' and seal the execution as failed is false: when the
organisation-unit fetch rejects, the fire boundary only logs — afterwards the
schedule's status is 'running' (not 'failed') and the execution row is still
an unsealed 'running' row. -/
theorem c3_counterexample :
    ((findScheduleRow (jobFire envFetchFail rowIdle "t" stIdle) "s1").map Schedule.status =
      some "running") ∧
    (∀ e ∈ (jobFire envFetchFail rowIdle "t" stIdle).job_executions,
      e.status = "running" ∧ e.endTime = none) := by decide

/-- C3 (amended): when the job body rejects (organisation-unit fetch failure)
the error is caught at the fire boundary and never propagates — the fire
returns the store exactly as the body left it — but nothing marks the schedule
'failed' or seals the execution: the schedule row stays 'running' and the
inserted execution row stays 'running' with no end time. -/
theorem c3_amended :
    ∀ (env : Env) (sched : Schedule) (now : String) (st : Store),
      env.unitsFetchFails = true → sched.status ≠ "running" → env.dbFails = false →
      (queryDHIS2 env sched now st).threw = true ∧
      jobFire env sched now st = (queryDHIS2 env sched now st).store ∧
      (jobFire env sched now st).job_executions =
        st.job_executions ++
          [{ id := env.jobId, scheduleId := sched.id, startTime := now, endTime := none,
             status := "running" }] ∧
      (∀ s ∈ (jobFire env sched now st).schedules, s.id = sched.id → s.status = "running") := by
  intro env sched now st hf hs hdb
  have hsb : (sched.status == "running") = false := by simp [hs]
  refine ⟨by simp [queryDHIS2, hsb, hf], rfl, ?_, ?_⟩
  · simp [jobFire, queryDHIS2, hsb, hf, startBlock, hdb, updSchedules, insertExecution]
  · intro s hmem hid
    simp only [jobFire, queryDHIS2, hsb, if_false, Bool.false_eq_true, hf, if_true,
      startBlock, hdb, updSchedules, insertExecution, List.mem_map] at hmem
    obtain ⟨b, hb, rfl⟩ := hmem
    obtain ⟨a, ha, rfl⟩ := hb
    by_cases hpa : (a.id == sched.id) = true
    · simp [hpa]
    · exfalso
      simp only [hpa, if_false, Bool.false_eq_true] at hid
      exact hpa (by simp [hid])

/-- C3 (witness): the amended claim applied at the concrete failing fetch. -/
theorem c3_witness :
    (queryDHIS2 envFetchFail rowIdle "t" stIdle).threw = true :=
  (c3_amended envFetchFail rowIdle "t" stIdle (by decide) (by decide) (by decide)).1

/-- C4 (counterexample): the claim that arming with an existing timer fails
with AlreadyRunning and leaves the registry untouched is false: with a timer
already registered for `s1`, `startScheduleJob` returns normally and replaces
the registry entry with the new, distinct timer. -/
theorem c4_counterexample :
    (startScheduleJob rowIdle regS1 1).2 = [("s1", { snapshot := rowIdle, tag := 1 })] ∧
    ({ snapshot := rowIdle, tag := 1 } : Timer) ≠ oldTimer := by decide

/-- C4 (amended): `startScheduleJob` never fails: even when a timer already
exists for the schedule's id it creates and starts a new timer and overwrites
the registry entry (`Map.set` semantics, registry size unchanged); the old
timer is not stopped, merely untracked.  (The AlreadyRunning rejection exists
only in the HTTP start handler, keyed on the persisted `isActive` flag.) -/
theorem c4_amended :
    ∀ (sched : Schedule) (reg : Registry) (tag : Nat) (t0 : Timer),
      mapGet reg sched.id = some t0 →
      startScheduleJob sched reg tag =
        ({ snapshot := sched, tag := tag },
         mapSet sched.id { snapshot := sched, tag := tag } reg) ∧
      mapGet (startScheduleJob sched reg tag).2 sched.id =
        some { snapshot := sched, tag := tag } ∧
      ((startScheduleJob sched reg tag).2).length = reg.length := by
  intro sched reg tag t0 h
  exact ⟨rfl, mapGet_mapSet_self sched.id _ reg, mapSet_length_present _ h⟩

/-- C4 (witness): the amended claim at the concrete occupied registry. -/
theorem c4_witness :
    ((startScheduleJob rowIdle regS1 1).2).length = regS1.length :=
  (c4_amended rowIdle regS1 1 oldTimer (by decide)).2.2

/-- C5 (counterexample): the claim that the job body refuses to run whenever
the persisted status in the store is 'running' is false for the timer path:
the timer fires with the arm-time snapshot (status 'idle') while the store
already holds the schedule as 'running', and the body proceeds — it inserts a
new execution record. -/
theorem c5_counterexample :
    ((findScheduleRow stRunning "s1").map Schedule.status = some "running") ∧
    (jobFire baseEnv rowIdle "t" stRunning).job_executions.length = 1 ∧
    stRunning.job_executions.length = 0 := by decide

/-- C5 (amended): the guard checks the status field of the schedule value the
body is invoked with, not the store: when that field is 'running' both
`queryDHIS2` variants do nothing at all (store unchanged, no progress writes,
no ALMA uploads, no rejection); a 'running' persisted status alone does not
stop a run started from a stale snapshot. -/
theorem c5_amended :
    ∀ (env : Env) (sched : Schedule) (now : String) (st : Store), sched.status = "running" →
      queryDHIS2 env sched now st =
        { store := st, progressWrites := [], almaSends := [], threw := false } ∧
      queryDHIS2v2 env sched now st =
        { store := st, progressWrites := [], almaSends := [], threw := false } := by
  intro env sched now st h
  constructor
  · simp [queryDHIS2, h]
  · simp [queryDHIS2v2, h]

/-- C5 (witness): the amended claim at a concrete 'running' snapshot. -/
theorem c5_witness :
    queryDHIS2 baseEnv rowRunning "t" stIdle =
      { store := stIdle, progressWrites := [], almaSends := [], threw := false } :=
  (c5_amended baseEnv rowRunning "t" stIdle (by decide)).1

/-- C6 (counterexample): the claim that every expression accepted by
`validate` has a next fire time is false: "0 0 30 2 *" (February 30) is
syntactically valid but never matches any instant, so `nextFireTime` yields
`none`. -/
theorem c6_counterexample :
    validate "0 0 30 2 *" = true ∧ nextFireTime "0 0 30 2 *" 0 = none := by
  exact ⟨by decide, by decide⟩

/-- C6 (amended): for every expression that cannot be parsed `nextFireTime`
returns `none`, and whenever `nextFireTime` does return an instant it is
strictly greater than the from-instant; a `validate`-accepted expression may
still yield `none` when it never matches (such as day 30 of February). -/
theorem c6_amended :
    (∀ (e : String) (t : Nat), validate e = false → nextFireTime e t = none) ∧
    (∀ (e : String) (t u : Nat), nextFireTime e t = some u → t < u) := by
  constructor
  · intro e t h
    unfold validate at h
    unfold nextFireTime
    cases hp : parseCron e with
    | none => rfl
    | some spec => rw [hp] at h; simp at h
  · intro e t u h
    unfold nextFireTime at h
    cases hp : parseCron e with
    | none => rw [hp] at h; simp at h
    | some spec =>
      rw [hp] at h
      have hb := searchFrom_bound searchHorizon spec (t / 1440) (dateOfDay (t / 1440))
        (dowOfDay (t / 1440)) (some (t % 1440)) u
        (fun c hc => by injection hc with hc2; omega) h
      have h2 := hb.2 (t % 1440) rfl
      omega

/-- C6 (witness): both parts of the amended claim at concrete inputs. -/
theorem c6_witness : nextFireTime "not a cron" 0 = none ∧ 5 < 6 :=
  ⟨c6_amended.1 "not a cron" 0 (by decide), c6_amended.2 "* * * * *" 5 6 (by decide)⟩

/-- C7 (confirmed): starting an existing, inactive schedule twice without an
intervening stop: the first request succeeds, the second is rejected with 400
"Schedule is already running", and the registry then holds exactly one armed
timer for that id. -/
theorem c7_confirmed :
    ∀ (nowT : Nat) (now1 now2 : String) (tag1 tag2 : Nat) (idp : String) (st : Store)
      (reg : Registry) (row : Schedule),
      findScheduleRow st idp = some row → row.isActive = false → mapGet reg idp = none →
      (startHandler nowT now1 false tag1 idp st reg).resp = Resp.ok 200 ∧
      (startHandler nowT now2 false tag2 idp (startHandler nowT now1 false tag1 idp st reg).store
          (startHandler nowT now1 false tag1 idp st reg).registry).resp =
        Resp.err 400 "Schedule is already running" ∧
      countKey (startHandler nowT now2 false tag2 idp
          (startHandler nowT now1 false tag1 idp st reg).store
          (startHandler nowT now1 false tag1 idp st reg).registry).registry idp = 1 := by
  intro nowT now1 now2 tag1 tag2 idp st reg row hrow hact hreg
  have hcall1 := startHandler_inactive nowT now1 tag1 idp st reg row hrow hact
  have hfid : ∀ s : Schedule, (startActivate now1 s).id = s.id := fun s => rfl
  have h1 := findScheduleRow_upd hfid hrow
  have hact2 : (startActivate now1 row).isActive = true := rfl
  have hcall2 := startHandler_active nowT now2 false tag2 idp
    (updSchedules st (fun s => s.id == idp) (startActivate now1))
    (mapSet row.id { snapshot := scheduleFromRow nowT row, tag := tag1 } reg)
    (startActivate now1 row) h1 hact2
  rw [hcall1]
  refine ⟨rfl, ?_, ?_⟩
  · rw [hcall2]
  · rw [hcall2]
    have hid : row.id = idp := findScheduleRow_id hrow
    rw [hid]
    exact countKey_mapSet_absent _ hreg

/-- C7 (witness): the double-start scenario at a concrete store and empty
registry. -/
theorem c7_witness :
    (startHandler 0 "t2" false 2 "s1" (startHandler 0 "t1" false 1 "s1" stIdle []).store
        (startHandler 0 "t1" false 1 "s1" stIdle []).registry).resp =
      Resp.err 400 "Schedule is already running" :=
  (c7_confirmed 0 "t1" "t2" 1 2 "s1" stIdle [] rowIdle (by decide) (by decide) (by decide)).2.1

/-- C8 (confirmed): schedule creation is rejected whenever name, cron
expression or task is missing, or `maxRetries` is outside 0..10, or
`retryDelay` is outside 0..3600; `maxRetries = 11` is rejected with the bounds
message while `maxRetries = 10` with `retryDelay = 3600` is accepted (201). -/
theorem c8_confirmed :
    (∀ (body : CreateBody) (uid now : String) (st : Store),
      body.name = none ∨ body.cronExpression = none ∨ body.task = none →
      ((createSchedule body uid now st).1).isErr = true) ∧
    (∀ (body : CreateBody) (uid now : String) (st : Store) (mr : Int),
      body.maxRetries = some mr → (mr < 0 ∨ 10 < mr) →
      ((createSchedule body uid now st).1).isErr = true) ∧
    (∀ (body : CreateBody) (uid now : String) (st : Store) (rd : Int),
      body.retryDelay = some rd → (rd < 0 ∨ 3600 < rd) →
      ((createSchedule body uid now st).1).isErr = true) ∧
    (createSchedule bodyMax11 "u1" "t" stEmpty).1 =
      Resp.err 400 "maxRetries must be between 0 and 10" ∧
    (createSchedule bodyBoundary "u1" "t" stEmpty).1 = Resp.ok 201 := by
  refine ⟨?_, ?_, ?_, by decide, by decide⟩
  · intro body uid now st h
    rcases h with h | h | h <;> simp [createSchedule, h, truthy, Resp.isErr]
  · intro body uid now st mr hmr hb
    simp only [createSchedule, hmr, Option.getD_some]
    split
    · rfl
    · split
      · rfl
      · split
        · rfl
        · rename_i h3
          exfalso
          simp only [Bool.or_eq_true, decide_eq_true_eq, not_or] at h3
          rcases hb with hb | hb <;> omega
  · intro body uid now st rd hrd hb
    simp only [createSchedule, hrd, Option.getD_some]
    split
    · rfl
    · split
      · rfl
      · split
        · rfl
        · split
          · rfl
          · rename_i h4
            exfalso
            simp only [Bool.or_eq_true, decide_eq_true_eq, not_or] at h4
            rcases hb with hb | hb <;> omega

/-- C8 (witness): the rejection branches applied at concrete bodies. -/
theorem c8_witness :
    ((createSchedule bodyNoName "u1" "t" stEmpty).1).isErr = true ∧
    ((createSchedule bodyMax11 "u1" "t" stEmpty).1).isErr = true ∧
    ((createSchedule { bodyBase with retryDelay := some 3601 } "u1" "t" stEmpty).1).isErr
      = true :=
  ⟨c8_confirmed.1 bodyNoName "u1" "t" stEmpty (Or.inl rfl),
   c8_confirmed.2.1 bodyMax11 "u1" "t" stEmpty 11 rfl (Or.inr (by omega)),
   c8_confirmed.2.2.1 { bodyBase with retryDelay := some 3601 } "u1" "t" stEmpty 3601 rfl
     (Or.inr (by omega))⟩

/-- C9: the first `queryDHIS2` variant computes the step progress as
`Math.round((i + 1 / totalSteps) * 100)` — an operator-precedence slip — so a
run over a single organisation unit passes progress values 0, 200, 100 to the
schedule UPDATEs: the step write is 200, outside the documented 0..100 range
(the second variant's `Math.round((i / totalSteps) * 100)` shows the intent). -/
theorem c9_eval :
    (queryDHIS2 envOneUnit rowIdle "t" stIdle).progressWrites = [0, 200, 100] := by
  have h2 : (queryDHIS2 envOneUnit rowIdle "t" stIdle).progressWrites =
      [0, progressV1 1 1, 100] := rfl
  rw [h2, progressV1_one]

/-- C10 (confirmed): when the store write of the start handler throws, the
handler answers 500 "Failed to start schedule", the persisted record is
unchanged (`isActive` still 0), but the timer armed just before the write
remains registered under the schedule's id — the arming is not rolled back. -/
theorem c10_confirmed :
    ∀ (nowT : Nat) (now : String) (tag : Nat) (idp : String) (st : Store) (reg : Registry)
      (row : Schedule),
      findScheduleRow st idp = some row → row.isActive = false →
      (startHandler nowT now true tag idp st reg).resp =
        Resp.err 500 "Failed to start schedule" ∧
      (startHandler nowT now true tag idp st reg).store = st ∧
      mapGet (startHandler nowT now true tag idp st reg).registry idp =
        some { snapshot := scheduleFromRow nowT row, tag := tag } := by
  intro nowT now tag idp st reg row hrow hact
  have hcall := startHandler_writeFail nowT now tag idp st reg row hrow hact
  rw [hcall]
  refine ⟨rfl, rfl, ?_⟩
  have hid : row.id = idp := findScheduleRow_id hrow
  rw [hid]
  exact mapGet_mapSet_self idp _ reg

/-- C10 (witness): the failed-write start request at a concrete store. -/
theorem c10_witness :
    (startHandler 0 "t" true 5 "s1" stIdle []).resp = Resp.err 500 "Failed to start schedule" :=
  (c10_confirmed 0 "t" 5 "s1" stIdle [] rowIdle (by decide) (by decide)).1
